import Mathlib

/-!
Verification of the multithreaded file downloader against its specification.

The Python sources are shallowly embedded below:
* `calculate_chunk_ranges`, `download_chunk`, `merge_chunks`, `ChunkDownload.run`
  embed `src/chunk_downloader.py`;
* `probe_resume`, `writeLoop`, `attempt`, `runLoop`, `download_with_resume`
  embed `src/downloader.py` (`download_with_resume`);
* `download_task`, `download_multiple` embed `src/thread_manager.py`;
* `calculate_checksum`, `validate_checksum` embed `src/validator.py`;
* `save_progress` embeds `src/progress_tracker.py`.

Machine integers are modelled as `Nat`/`Int` (Python integers are unbounded, so
no wrap-around is involved).  File contents are lists of bytes (`List Nat`);
a missing file is `none`.  Network responses, hash primitives and timestamps
are parameters of the embedding, since they are external inputs of the code.
-/

/-! Chunk engine, range partitioning (src/chunk_downloader.py 85-114). -/

/-- Embedding of `ChunkDownloader.calculate_chunk_ranges`.
`chunk_size = file_size // num_chunks`; chunk `i` starts at `i * chunk_size`;
every chunk but the last ends at `start + chunk_size - 1`; the last chunk ends
at `file_size - 1` (it absorbs the division remainder).  End bytes are `Int`
because Python computes `start + chunk_size - 1`, which is `-1` for a
degenerate chunk when `chunk_size == 0`.  (For `num_chunks = 0` the Python
code raises `ZeroDivisionError`; all theorems below assume `1 ≤ num_chunks`.) -/
def calculate_chunk_ranges (num_chunks file_size : Nat) : List (Nat × Int × Int) :=
  let chunk_size := file_size / num_chunks
  (List.range num_chunks).map fun i =>
    (i, ((i * chunk_size : Nat) : Int),
      if i = num_chunks - 1 then (file_size : Int) - 1
      else ((i * chunk_size : Nat) : Int) + (chunk_size : Int) - 1)

/-- The set of byte offsets covered by one `(chunk_id, start_byte, end_byte)`
range (both bounds inclusive, as in the HTTP `Range` header the code sends). -/
def spanSet (r : Nat × Int × Int) : Set Int := Set.Icc r.2.1 r.2.2

/-- Number of bytes covered by a range: `end_byte - start_byte + 1`. -/
def spanLength (r : Nat × Int × Int) : Int := r.2.2 - r.2.1 + 1

/-- Cut points of the partition produced by `calculate_chunk_ranges`:
chunk `i` covers `[chunkCut i, chunkCut (i+1))`. -/
def chunkCut (num_chunks file_size i : Nat) : Nat :=
  if num_chunks ≤ i then file_size else i * (file_size / num_chunks)

/-! Multi-file scheduler (src/thread_manager.py). -/

/-- Embedding of the `DownloadTask` dataclass.  `task_id` is stored already
resolved (the `__post_init__` default, the destination base name, is applied by
the caller); it is used only for logging and is irrelevant to the results. -/
structure DownloadTask where
  url : String
  destination : String
  expected_size : Option Nat
  checksum : Option String
  checksum_type : String
  task_id : String
deriving Repr, DecidableEq

/-- Embedding of the `DownloadResult` dataclass. -/
structure DownloadResult where
  task : DownloadTask
  success : Bool
  error : Option String
  destination : Option String
deriving Repr, DecidableEq

/-- Embedding of `ThreadManager.download_task` (lines 73-122): the underlying
`download_and_validate` call either returns normally (`Except.ok`) or raises
(`Except.error`); the `except Exception` handler turns the raised exception
into a failed `DownloadResult` instead of propagating it. -/
def download_task (task : DownloadTask) (outcome : Except String Unit) : DownloadResult :=
  match outcome with
  | .ok _ => ⟨task, true, none, some task.destination⟩
  | .error e => ⟨task, false, some e, none⟩

/-- Embedding of `ThreadManager.download_multiple` (lines 124-207).
`behavior i` is the outcome of `download_and_validate` for the task at input
position `i`; `order` is the order in which `as_completed` yields the futures,
an arbitrary permutation of the input positions (one future is submitted per
task, so positions — not task values — index the futures).  Each completed
future appends exactly one `DownloadResult`. -/
def download_multiple (tasks : List DownloadTask) (behavior : Nat → Except String Unit)
    (order : List Nat) : List DownloadResult :=
  if tasks.isEmpty then []
  else order.filterMap fun i => (tasks[i]?).map fun t => download_task t (behavior i)

/-- Placeholder task used only to state positional facts with `List.getD`. -/
def dummyTask : DownloadTask := ⟨"", "", none, none, "", ""⟩

/-! Single-stream resumable downloader (src/downloader.py, download_with_resume). -/

/-- Fields of the persisted progress dictionary created and mutated by
`download_with_resume` (lines 204-212).  The `last_updated` stamp added by
`save_progress` is modelled separately (see `save_progress` below), since the
downloader never reads it back. -/
structure ProgressData where
  url : String
  destination : String
  total_size : Option Nat
  downloaded_bytes : Nat
  checksum : Option String
  checksum_type : String
  status : String
deriving Repr, DecidableEq

/-- One HTTP exchange as seen by a single `requests.get` call in
`download_with_resume`: either the request times out, or a response arrives
with a status code, an optional `Content-Length`, the body blocks delivered by
`iter_content(chunk_size=8192)`, and a flag telling whether the connection
times out mid-body (after the listed blocks) instead of ending normally. -/
inductive Response where
  | timeout
  | http (status : Nat) (content_length : Option Nat) (body : List (List Nat))
      (interrupted : Bool)
deriving Repr, DecidableEq

/-- A recorded value of the progress dictionary; `reset200` marks the record
made by the HTTP-200-after-resume branch (lines 261-268), which zeroes
`downloaded_bytes`. -/
structure TraceEntry where
  reset200 : Bool
  pd : ProgressData
deriving Repr, DecidableEq

/-- How one iteration of the retry loop ends: normal return, a retryable
exception (timeout or HTTP 5xx), or a non-retryable exception. -/
inductive AttemptOutcome where
  | success
  | retryable
  | fatal (msg : String)
deriving Repr, DecidableEq

/-- Mutable state threaded through the retry loop: the resume offset, the
in-memory progress dictionary and the destination file (`none` = absent). -/
structure AttemptState where
  resume_from : Nat
  pd : ProgressData
  file : Option (List Nat)
deriving Repr, DecidableEq

/-- Result of one retry-loop iteration: its outcome, the state afterwards, the
progress values recorded during it, and the file mode used (`some true` =
truncating `wb`, `some false` = append `ab`, `none` = file never opened). -/
structure AttemptResult where
  outcome : AttemptOutcome
  st : AttemptState
  trace : List TraceEntry
  mode_wb : Option Bool
deriving Repr, DecidableEq

/-- Embedding of `validate_partial_file` (src/progress_tracker.py 133-165):
true iff the file exists and its size equals the expected byte count.  The
expected value is optional because `download_with_resume` also calls it with a
possibly absent `expected_size` (Python `None` compares unequal to any
size). -/
def validate_partial_file (file : Option (List Nat)) (expected : Option Nat) : Bool :=
  match file, expected with
  | some content, some e => content.length = e
  | _, _ => false

/-- Checkpoint threshold of the write loop (line 311): 1 MiB. -/
def save_interval : Nat := 1024 * 1024

/-- Result of the block-write loop (lines 313-327). -/
structure WriteOut where
  pd : ProgressData
  file : List Nat
  bytes_since_last_save : Nat
  trace : List TraceEntry
deriving Repr, DecidableEq

/-- Embedding of the block-write loop (lines 313-327): each non-empty block is
appended to the file, `downloaded_bytes` grows by the block length (recorded
in the trace), and a checkpoint `save_progress` fires when the bytes written
since the last save reach `save_interval` (the save persists the current
dictionary, which the trace already holds, and resets the counter). -/
def writeLoop : List (List Nat) → ProgressData → List Nat → Nat → WriteOut
  | [], pd, f, b => ⟨pd, f, b, []⟩
  | c :: rest, pd, f, b =>
    if c.isEmpty then writeLoop rest pd f b
    else
      let pd2 := { pd with downloaded_bytes := pd.downloaded_bytes + c.length }
      let b2 := b + c.length
      let w := writeLoop rest pd2 (f ++ c) (if save_interval ≤ b2 then 0 else b2)
      { w with trace := ⟨false, pd2⟩ :: w.trace }

/-- Embedding of lines 296-346 of `download_with_resume`: open the destination
in append mode when resuming (`resume_from > 0`), truncating write mode
otherwise; run the write loop; then either fail with a mid-body timeout
(retryable, resume point re-derived from `downloaded_bytes`), or mark the
transfer complete, save, and validate the final size (the Python
`if expected_size:` test treats `0` as absent). -/
def attemptWrite (expected_size : Option Nat) (resume_from : Nat)
    (pd : ProgressData) (file : Option (List Nat))
    (body : List (List Nat)) (interrupted : Bool) : AttemptResult :=
  let mode_ab : Bool := decide (0 < resume_from)
  let f0 : List Nat := if mode_ab then file.getD [] else []
  let w := writeLoop body pd f0 0
  if interrupted then
    ⟨.retryable, ⟨w.pd.downloaded_bytes, w.pd, some w.file⟩, w.trace, some (!mode_ab)⟩
  else
    let pdC := { w.pd with status := "complete" }
    let outcome : AttemptOutcome :=
      match expected_size with
      | some e =>
        if e ≠ 0 ∧ w.file.length ≠ e then .fatal "final size mismatch" else .success
      | none => .success
    ⟨outcome, ⟨resume_from, pdC, some w.file⟩, w.trace ++ [⟨false, pdC⟩], some (!mode_ab)⟩

/-- The fatal size-mismatch test of lines 288-291 (`if expected_size and
total_size != expected_size:`, Python truthiness: an expected size of 0 never
triggers it). -/
def contentCheck (expected_size : Option Nat) (total : Nat) : Bool :=
  match expected_size with
  | some e => e != 0 && total != e
  | none => false

/-- Line 284-285: record the declared total on first sight
(`if not progress_data.get('total_size'):`, Python truthiness: a stored 0
counts as unset). -/
def recordTotal (pd : ProgressData) (total : Nat) : ProgressData :=
  if (match pd.total_size with | none => true | some t => t = 0) then
    { pd with total_size := some total }
  else pd

/-- Embedding of one iteration of the retry loop of `download_with_resume`
(lines 230-346): status dispatch — 404/403 fatal; 416 marks the transfer
complete if the on-disk size matches the expected size and is fatal otherwise;
any other status of 400 and above raises, retryable exactly for 5xx; HTTP 200
while a resume was requested resets the resume point and `downloaded_bytes` to
0 and deletes the partial file; then `Content-Length` handling (for 206 the
total is `resume_from + length`), recording the total on first sight (Python
truthiness: a stored `0` counts as unset), the size-mismatch check, and the
write phase. -/
def attempt (url : String) (expected_size : Option Nat) (s : AttemptState)
    (r : Response) : AttemptResult :=
  match r with
  | .timeout =>
    ⟨.retryable, ⟨s.pd.downloaded_bytes, s.pd, s.file⟩, [], none⟩
  | .http status cl body interrupted =>
    if status = 404 then ⟨.fatal "not found", s, [], none⟩
    else if status = 403 then ⟨.fatal "forbidden", s, [], none⟩
    else if status = 416 then
      if validate_partial_file s.file expected_size then
        let pdC := { s.pd with status := "complete" }
        ⟨.success, ⟨s.resume_from, pdC, s.file⟩, [⟨false, pdC⟩], none⟩
      else ⟨.fatal "invalid range and file incomplete", s, [], none⟩
    else if 400 ≤ status then
      if 500 ≤ status ∧ status < 600 then
        ⟨.retryable, ⟨s.pd.downloaded_bytes, s.pd, s.file⟩, [], none⟩
      else ⟨.fatal "http error", s, [], none⟩
    else
      let s1 : AttemptState :=
        if status = 200 ∧ 0 < s.resume_from then
          ⟨0, { s.pd with downloaded_bytes := 0 }, none⟩
        else s
      let tr1 : List TraceEntry :=
        if status = 200 ∧ 0 < s.resume_from then [⟨true, s1.pd⟩] else []
      match cl with
      | some n =>
        let total := if status = 206 then s1.resume_from + n else n
        let pd2 := recordTotal s1.pd total
        if contentCheck expected_size total then
          ⟨.fatal "size mismatch", ⟨s1.resume_from, pd2, s1.file⟩, tr1, none⟩
        else
          let w := attemptWrite expected_size s1.resume_from pd2 s1.file body interrupted
          { w with trace := tr1 ++ w.trace }
      | none =>
        let w := attemptWrite expected_size s1.resume_from s1.pd s1.file body interrupted
        { w with trace := tr1 ++ w.trace }

/-- Observable outcome of the whole `download_with_resume` call: how it ends,
every recorded progress value, the backoff sleeps performed (as pairs of the
0-indexed attempt that failed and the slept delay), and the final state. -/
structure RunResult where
  outcome : AttemptOutcome
  trace : List TraceEntry
  delays : List (Nat × Nat)
  final : AttemptState
deriving Repr, DecidableEq

/-- Embedding of the retry loop (lines 229-380): `responses a` is the network
behavior of attempt `a` (0-indexed); `fuel` is the number of attempts still
allowed, `max_retries - a`, so the loop guard `attempt < max_retries` becomes
`fuel > 0` (the recursion is structural on `fuel`; `download_with_resume`
enters with `fuel = max_retries`, `a = 0`).  After a retryable failure the
attempt counter is incremented first; then, when attempts remain, the loop
sleeps `min(base_delay * 2 ** attempt, max_delay)` computed with the
already-incremented counter (lines 372-377); exhaustion raises. -/
def runLoop (url : String) (expected_size : Option Nat)
    (base_delay max_delay : Nat) (responses : Nat → Response) :
    Nat → Nat → AttemptState → RunResult
  | 0, _, s => ⟨.fatal "retries exhausted", [], [], s⟩
  | fuel + 1, a, s =>
    let r := attempt url expected_size s (responses a)
    match r.outcome with
    | .success => ⟨.success, r.trace, [], r.st⟩
    | .fatal m => ⟨.fatal m, r.trace, [], r.st⟩
    | .retryable =>
      match fuel with
      | 0 => ⟨.fatal "retries exhausted", r.trace, [], r.st⟩
      | fuel2 + 1 =>
        let rest := runLoop url expected_size base_delay max_delay responses
          (fuel2 + 1) (a + 1) r.st
        ⟨rest.outcome, r.trace ++ rest.trace,
          (a, min (base_delay * 2 ^ (a + 1)) max_delay) :: rest.delays, rest.final⟩

/-- Result of the resume-validation phase (lines 178-201). -/
structure ProbeOut where
  pd : Option ProgressData
  resume_from : Nat
  file : Option (List Nat)
deriving Repr, DecidableEq

/-- Embedding of lines 178-201 of `download_with_resume`: validate a loaded
progress record.  (a) a URL mismatch, or (b) a stored-size versus
expected-size conflict (both present and non-zero — Python truthiness),
discards the record and leaves the partial file on disk; (c) a partial file
whose length differs from the stored `downloaded_bytes` (or is absent)
discards the record and deletes the partial file; otherwise the resume point
is the stored `downloaded_bytes`. -/
def probe_resume (url : String) (expected_size : Option Nat)
    (prior : Option ProgressData) (file : Option (List Nat)) : ProbeOut :=
  match prior with
  | none => ⟨none, 0, file⟩
  | some pd =>
    if pd.url ≠ url then ⟨none, 0, file⟩
    else if (match pd.total_size, expected_size with
      | some t, some e => t != 0 && e != 0 && t != e
      | _, _ => false) then ⟨none, 0, file⟩
    else if validate_partial_file file (some pd.downloaded_bytes) then
      ⟨some pd, pd.downloaded_bytes, file⟩
    else ⟨none, 0, none⟩

/-- Embedding of `download_with_resume` (lines 153-380): probe the prior
record, initialize a fresh in-progress record when there is none left (lines
202-213, also persisted), then run the retry loop.  `prior` and `file0` are
the loaded progress record and the on-disk partial file; `responses` gives
each attempt's network behavior. -/
def download_with_resume (url destination : String) (expected_size : Option Nat)
    (checksum : Option String) (checksum_type : String)
    (prior : Option ProgressData) (file0 : Option (List Nat))
    (responses : Nat → Response)
    (max_retries base_delay max_delay : Nat) : RunResult :=
  let pr := probe_resume url expected_size prior file0
  let pd0 := match pr.pd with
    | some pd => pd
    | none => ⟨url, destination, expected_size, 0, checksum, checksum_type, "in_progress"⟩
  let r := runLoop url expected_size base_delay max_delay responses max_retries 0
    ⟨pr.resume_from, pd0, pr.file⟩
  { r with trace := ⟨false, pd0⟩ :: r.trace }

/-- Relation between consecutively recorded progress values: the byte count
never decreases, except at the record made by the HTTP-200 restart branch,
which resets it to zero. -/
def stepOk (a b : TraceEntry) : Prop :=
  a.pd.downloaded_bytes ≤ b.pd.downloaded_bytes ∨
    (b.reset200 = true ∧ b.pd.downloaded_bytes = 0)

/-- Claim C3's property as a boolean check over the recorded trace: every
earlier-later pair of records that are both `in_progress` is non-decreasing
in `downloaded_bytes`. -/
def traceMonotoneInProgress : List TraceEntry → Bool
  | [] => true
  | e :: rest =>
    (rest.all fun e2 =>
      !(e.pd.status == "in_progress") || !(e2.pd.status == "in_progress") ||
        decide (e.pd.downloaded_bytes ≤ e2.pd.downloaded_bytes)) &&
      traceMonotoneInProgress rest

/-! Chunk engine, download, cleanup and merge (src/chunk_downloader.py). -/

/-- Outcome of one attempt of `ChunkDownloader.download_chunk` (lines
133-178): a 206 response fully written; an exception before the chunk file is
opened (timeout, or a non-206 status which raises `ValueError`); or an
exception after the file was opened for truncating write, with only a prefix
of the body blocks written. -/
inductive ChunkAttemptOutcome where
  | ok (body : List (List Nat))
  | failNoWrite
  | failMidWrite (written : List (List Nat))
deriving Repr, DecidableEq

/-- Embedding of `ChunkDownloader.download_chunk` (lines 116-180) as
`(returned value, chunk file content, error recorded)`; `fuel` is
`max_retries - attempt` (structural recursion; callers enter with
`fuel = max_retries`, attempt `0`).  The error-list append (lines 175-177)
happens only when the final attempt fails inside the loop; when
`max_retries = 0` the loop body never runs and the function returns `False`
without recording an error (line 180). -/
def download_chunk (behavior : Nat → ChunkAttemptOutcome) :
    Nat → Nat → Option (List Nat) → Bool × Option (List Nat) × Bool
  | 0, _, file => (false, file, false)
  | fuel + 1, a, file =>
    match behavior a with
    | .ok body => (true, some body.flatten, false)
    | .failNoWrite =>
      match fuel with
      | 0 => (false, file, true)
      | fuel2 + 1 => download_chunk behavior (fuel2 + 1) (a + 1) file
    | .failMidWrite w =>
      match fuel with
      | 0 => (false, some w.flatten, true)
      | fuel2 + 1 => download_chunk behavior (fuel2 + 1) (a + 1) (some w.flatten)

/-- Embedding of `ChunkDownloader.merge_chunks` (lines 182-214) acting on the
list of chunk-file contents: the destination is opened truncating, each chunk
file is appended to it and then deleted; a missing chunk file raises `IOError`
on the spot (later chunk files stay untouched).  Returns
`(completed, destination content, chunk files afterwards)`. -/
def merge_chunks : List (Option (List Nat)) → List Nat →
    Bool × List Nat × List (Option (List Nat))
  | [], acc => (true, acc, [])
  | none :: rest, acc => (false, acc, none :: rest)
  | some c :: rest, acc =>
    let m := merge_chunks rest (acc ++ c)
    (m.1, m.2.1, none :: m.2.2)

/-- Observable outcome of `ChunkDownloader.download`: the returned value, the
chunk temp files, whether the temp directory still exists, and the destination
file content. -/
structure ChunkDownloadOut where
  result : Bool
  chunkFiles : List (Option (List Nat))
  tempDir : Bool
  dest : Option (List Nat)
deriving Repr, DecidableEq

/-- Embedding of `ChunkDownloader.download` (lines 216-329).  The HEAD probe
is abstracted by `supports_range`/`head_size`; `behavior c a` is the network
outcome of chunk `c`'s attempt `a`; `dest0` is the pre-existing destination
content.  Mirrors the source: fall back (before creating the temp directory)
when range support or the size is missing — Python truthiness, so size `0`
also falls back — or when the expected size conflicts; run every chunk's
`download_chunk` (the computed `calculate_chunk_ranges` spans only parametrize
the Range request headers, which are external inputs here); if any error was
recorded, remove the chunk files and the temp directory and return `False`;
otherwise merge — the merge `IOError` is caught at line 327 and returns
`False` without removing the temp directory — and finally compare the merged
size against the probed size. -/
def ChunkDownloader.download (num_chunks max_retries : Nat)
    (supports_range : Bool) (head_size : Option Nat) (expected_size : Option Nat)
    (behavior : Nat → Nat → ChunkAttemptOutcome)
    (dest0 : Option (List Nat)) : ChunkDownloadOut :=
  if ¬ supports_range ∨ head_size.getD 0 = 0 then ⟨false, [], false, dest0⟩
  else
    let file_size := head_size.getD 0
    if contentCheck expected_size file_size then
      ⟨false, [], false, dest0⟩
    else
      let outs := (List.range num_chunks).map fun c =>
        download_chunk (behavior c) max_retries 0 none
      if outs.any fun o => o.2.2 then
        ⟨false, outs.map fun _ => none, false, dest0⟩
      else
        let m := merge_chunks (outs.map fun o => o.2.1) []
        if m.1 then
          if m.2.1.length ≠ file_size then ⟨false, m.2.2, false, some m.2.1⟩
          else ⟨true, m.2.2, false, some m.2.1⟩
        else ⟨false, m.2.2, true, some m.2.1⟩

/-! Checksum verifier (src/validator.py). -/

/-- Embedding of the `f.read(chunk_size)` loop of `calculate_checksum` (lines
53-58), via `readChunksAux`: the blocks read from a file with the given
content.  Python `f.read(0)` returns an empty bytes object, so a zero block
size reads nothing.  `readChunksAux` is fueled to make the recursion
structural; `content.length` iterations always suffice, because each
iteration with a non-zero block size consumes at least one byte. -/
def readChunksAux (c : Nat) : Nat → List Nat → List (List Nat)
  | 0, _ => []
  | fuel + 1, content =>
    if c = 0 ∨ content = [] then []
    else content.take c :: readChunksAux c fuel (content.drop c)

def readChunks (c : Nat) (content : List Nat) : List (List Nat) :=
  readChunksAux c content.length content

/-- Python `str.lower()`, modelled as a per-character lowercase map (the
strings the code lowercases are algorithm names and hex digests, all
ASCII). -/
def pyLower (s : String) : String := ⟨s.data.map Char.toLower⟩

/-- Embedding of `calculate_checksum` (src/validator.py 14-67), parametric in
the hash primitives: `md5fn`/`sha256fn` map a byte sequence to its hex digest
(feeding blocks to the incremental `hasher.update` equals, by the hashlib
contract, hashing the blocks' concatenation).  An unsupported algorithm name
raises `ValueError` before the file is touched; a missing file raises at the
file access. -/
def calculate_checksum (md5fn sha256fn : List Nat → String)
    (file : Option (List Nat)) (checksum_type : String) (chunk_size : Nat) :
    Except String String :=
  if pyLower checksum_type = "md5" then
    match file with
    | none => .error "IOError"
    | some content => .ok (md5fn ((readChunks chunk_size content).flatten))
  else if pyLower checksum_type = "sha256" then
    match file with
    | none => .error "IOError"
    | some content => .ok (sha256fn ((readChunks chunk_size content).flatten))
  else .error "Unsupported checksum type"

/-- Result of `validate_checksum`: the returned or raised value, and whether
the file was opened and read (`calculate_checksum` reached). -/
structure ValidateOut where
  result : Except String Bool
  read_file : Bool
deriving Repr

/-- Embedding of `validate_checksum` (src/validator.py 70-108): the sentinel
expected value `"skip"` (compared lower-cased) returns success before any file
access; otherwise the computed digest is compared lower-cased against the
lower-cased expected value, raising `ValueError` on mismatch. -/
def validate_checksum (md5fn sha256fn : List Nat → String)
    (file : Option (List Nat)) (expected_checksum : String)
    (checksum_type : String) : ValidateOut :=
  if pyLower expected_checksum = "skip" then ⟨.ok true, false⟩
  else
    match calculate_checksum md5fn sha256fn file checksum_type 8192 with
    | .error e => ⟨.error e, true⟩
    | .ok actual =>
      if pyLower actual = pyLower expected_checksum then ⟨.ok true, true⟩
      else ⟨.error "Checksum mismatch", true⟩

/-! Progress store (src/progress_tracker.py). -/

/-- JSON-compatible values held by the progress dictionary. -/
inductive JVal where
  | str (s : String)
  | num (n : Int)
  | boolean (b : Bool)
  | null
deriving Repr, DecidableEq

/-- Python dict assignment `d[k] = v` on a string-keyed dict, modelled on the
insertion-ordered association list: overwrite the existing entry in place,
otherwise append at the end. -/
def dictSet : List (String × JVal) → String → JVal → List (String × JVal)
  | [], k, v => [(k, v)]
  | (k1, v1) :: rest, k, v =>
    if k1 = k then (k, v) :: rest else (k1, v1) :: dictSet rest k v

/-- Python dict lookup `d.get(k)`. -/
def dictGet : List (String × JVal) → String → Option JVal
  | [], _ => none
  | (k1, v1) :: rest, k => if k1 = k then some v1 else dictGet rest k

/-- Result of `save_progress`: the caller's dictionary after the in-place
mutation, and the record persisted at `progress_file` (`none` when the write
raised `IOError`, in which case the temp artifact is cleaned up and nothing is
persisted). -/
structure SaveOut where
  progress_data : List (String × JVal)
  written : Option (List (String × JVal))
deriving Repr, DecidableEq

/-- Embedding of `save_progress` (src/progress_tracker.py 47-100): stamp
`last_updated` with `datetime.utcnow().isoformat() + 'Z'` (the clock reading
`now` is a parameter), then write the serialized dictionary to a temp file and
atomically rename it into place; `write_ok` tells whether that write
succeeds. -/
def save_progress (now : String) (write_ok : Bool)
    (progress_data : List (String × JVal)) : SaveOut :=
  let pd := dictSet progress_data "last_updated" (.str (now ++ "Z"))
  ⟨pd, if write_ok then some pd else none⟩

theorem chunkCut_monotone (n fs : Nat) : Monotone (chunkCut n fs) := by
  apply monotone_nat_of_le_succ
  intro i
  unfold chunkCut
  rcases le_or_lt n i with h | h
  · simp [h, le_trans h (Nat.le_succ i)]
  · rcases le_or_lt n (i + 1) with h2 | h2
    · simp only [if_neg (not_le.mpr h), if_pos h2]
      calc i * (fs / n) ≤ n * (fs / n) := Nat.mul_le_mul_right _ (by omega)
        _ = (fs / n) * n := Nat.mul_comm _ _
        _ ≤ fs := Nat.div_mul_le_self fs n
    · simp only [if_neg (not_le.mpr h), if_neg (not_le.mpr h2)]
      exact Nat.mul_le_mul_right _ (Nat.le_succ i)

theorem calculate_chunk_ranges_length (n fs : Nat) :
    (calculate_chunk_ranges n fs).length = n := by
  simp [calculate_chunk_ranges]

theorem calculate_chunk_ranges_get (n fs : Nat)
    (i : Fin (calculate_chunk_ranges n fs).length) :
    (calculate_chunk_ranges n fs).get i =
      (i.1, ((i.1 * (fs / n) : Nat) : Int),
        if i.1 = n - 1 then (fs : Int) - 1
        else ((i.1 * (fs / n) : Nat) : Int) + ((fs / n : Nat) : Int) - 1) := by
  obtain ⟨i, hi⟩ := i
  simp [calculate_chunk_ranges]

theorem spanSet_eq_Ico (n fs : Nat) (hn : 1 ≤ n)
    (i : Fin (calculate_chunk_ranges n fs).length) :
    spanSet ((calculate_chunk_ranges n fs).get i) =
      Set.Ico ((chunkCut n fs i.1 : Nat) : Int)
        ((chunkCut n fs (i.1 + 1) : Nat) : Int) := by
  obtain ⟨i, hilen⟩ := i
  have h : i < n := by
    have h3 := calculate_chunk_ranges_length n fs
    omega
  rw [calculate_chunk_ranges_get n fs ⟨i, hilen⟩]
  dsimp only
  unfold spanSet chunkCut
  rcases eq_or_ne i (n - 1) with hi | hi
  · have h1 : ¬ n ≤ i := not_le.mpr h
    have h2 : n ≤ i + 1 := by omega
    simp only [if_pos hi, if_neg h1, if_pos h2]
    ext x
    simp only [Set.mem_Icc, Set.mem_Ico]
    omega
  · have h1 : ¬ n ≤ i := not_le.mpr h
    have h2 : ¬ n ≤ i + 1 := by omega
    simp only [if_neg hi, if_neg h1, if_neg h2]
    ext x
    simp only [Set.mem_Icc, Set.mem_Ico]
    push_cast
    constructor
    · rintro ⟨ha, hb⟩
      refine ⟨ha, ?_⟩
      have : (x : Int) ≤ (i + 1) * (fs / n) - 1 := by
        calc (x : Int) ≤ i * (fs / n) + (fs / n) - 1 := hb
          _ = (i + 1) * (fs / n) - 1 := by ring
      omega
    · rintro ⟨ha, hb⟩
      refine ⟨ha, ?_⟩
      have : (x : Int) ≤ (i + 1) * (fs / n) - 1 := by omega
      calc (x : Int) ≤ (i + 1) * (fs / n) - 1 := this
        _ = i * (fs / n) + (fs / n) - 1 := by ring

theorem iUnion_Ico_of_monotone (f : Nat → Int) (mono : Monotone f) :
    ∀ k, (⋃ i ∈ Finset.range k, Set.Ico (f i) (f (i + 1))) = Set.Ico (f 0) (f k) := by
  intro k
  induction k with
  | zero => simp
  | succ k ih =>
    rw [Finset.range_succ, Finset.set_biUnion_insert, ih, Set.union_comm]
    exact Set.Ico_union_Ico_eq_Ico (mono (Nat.zero_le k)) (mono (Nat.le_succ k))

theorem telescoping_list_sum (f : Nat → Int) :
    ∀ k, (((List.range k).map fun i => f (i + 1) - f i).sum) = f k - f 0 := by
  intro k
  induction k with
  | zero => simp
  | succ k ih =>
    rw [List.range_succ, List.map_append, List.sum_append, ih]
    simp

theorem list_biUnion_eq_fin {α β : Type} (l : List α) (g : α → Set β) :
    (⋃ r ∈ l, g r) = ⋃ i : Fin l.length, g (l.get i) := by
  ext x
  simp only [Set.mem_iUnion]
  constructor
  · rintro ⟨r, hr, hx⟩
    obtain ⟨i, rfl⟩ := List.mem_iff_get.mp hr
    exact ⟨i, hx⟩
  · rintro ⟨i, hx⟩
    exact ⟨_, l.get_mem i.1 i.2, hx⟩

theorem filterMap_tasks_eq_map (tasks : List DownloadTask)
    (behavior : Nat → Except String Unit) :
    ∀ l : List Nat, (∀ i ∈ l, i < tasks.length) →
      (l.filterMap fun i => (tasks[i]?).map fun t => download_task t (behavior i)) =
        l.map fun i => download_task (tasks.getD i dummyTask) (behavior i) := by
  intro l
  induction l with
  | nil => intro _; simp
  | cons a l ih =>
    intro h
    have ha : a < tasks.length := h a (List.mem_cons_self a l)
    rw [List.filterMap_cons, List.map_cons, List.getElem?_eq_getElem ha]
    simp only [Option.map_some']
    rw [ih fun i hi => h i (List.mem_cons_of_mem a hi)]
    congr 1
    rw [List.getD_eq_getElem?_getD, List.getElem?_eq_getElem ha]
    rfl

/-- C1: for every `totalSizeBytes > 0` and `numChunks ≥ 1`,
`calculate_chunk_ranges` produces `numChunks` spans whose union is exactly the
byte interval `[0, totalSizeBytes)`, pairwise non-overlapping, the sum of span
lengths equals `totalSizeBytes`, the boundaries follow the floor-division rule
`chunk_size = totalSizeBytes // numChunks` with the entire remainder on the
last span (zero-length spans appear when `numChunks` exceeds `totalSizeBytes`),
and size 1000 with 3 chunks yields spans `(0,0,332)`, `(1,333,665)`,
`(2,666,999)`. -/
theorem C1_range_partition (file_size num_chunks : Nat)
    (hfs : 0 < file_size) (hn : 1 ≤ num_chunks) :
    (calculate_chunk_ranges num_chunks file_size).length = num_chunks ∧
    (⋃ r ∈ calculate_chunk_ranges num_chunks file_size, spanSet r) =
      Set.Ico (0 : Int) (file_size : Int) ∧
    (calculate_chunk_ranges num_chunks file_size).Pairwise
      (fun r s => spanSet r ∩ spanSet s = ∅) ∧
    ((calculate_chunk_ranges num_chunks file_size).map spanLength).sum = (file_size : Int) ∧
    (∀ i : Fin (calculate_chunk_ranges num_chunks file_size).length,
      (calculate_chunk_ranges num_chunks file_size).get i =
        (i.1, ((i.1 * (file_size / num_chunks) : Nat) : Int),
          if i.1 = num_chunks - 1 then (file_size : Int) - 1
          else ((i.1 * (file_size / num_chunks) : Nat) : Int) +
            ((file_size / num_chunks : Nat) : Int) - 1)) ∧
    calculate_chunk_ranges 3 1000 = [(0, 0, 332), (1, 333, 665), (2, 666, 999)] := by
  set n := num_chunks
  set fs := file_size
  have hmono : Monotone fun i => ((chunkCut n fs i : Nat) : Int) :=
    fun a b hab => Int.ofNat_le.mpr (chunkCut_monotone n fs hab)
  have hcut0 : chunkCut n fs 0 = 0 := by simp [chunkCut, Nat.not_le.mpr hn]
  have hcutn : chunkCut n fs n = fs := by simp [chunkCut]
  refine ⟨calculate_chunk_ranges_length n fs, ?_, ?_, ?_, ?_, by decide⟩
  · rw [list_biUnion_eq_fin]
    have : (⋃ i : Fin (calculate_chunk_ranges n fs).length,
        spanSet ((calculate_chunk_ranges n fs).get i)) =
        ⋃ i ∈ Finset.range n, Set.Ico ((chunkCut n fs i : Nat) : Int)
          ((chunkCut n fs (i + 1) : Nat) : Int) := by
      ext x
      simp only [Set.mem_iUnion, Finset.mem_range]
      constructor
      · rintro ⟨i, hx⟩
        have hi : i.1 < n := by
          have h2 := i.2
          have h3 := calculate_chunk_ranges_length n fs
          omega
        refine ⟨i.1, hi, ?_⟩
        rwa [spanSet_eq_Ico n fs hn i] at hx
      · rintro ⟨i, hi, hx⟩
        refine ⟨⟨i, by rw [calculate_chunk_ranges_length]; exact hi⟩, ?_⟩
        rwa [spanSet_eq_Ico n fs hn ⟨i, by rw [calculate_chunk_ranges_length]; exact hi⟩]
    rw [this, iUnion_Ico_of_monotone _ hmono n, hcut0, hcutn]
    norm_num
  · rw [List.pairwise_iff_get]
    intro i j hij
    have hi : i.1 < n := by
      have h2 := i.2
      have h3 := calculate_chunk_ranges_length n fs
      omega
    have hj : j.1 < n := by
      have h2 := j.2
      have h3 := calculate_chunk_ranges_length n fs
      omega
    rw [spanSet_eq_Ico n fs hn i, spanSet_eq_Ico n fs hn j]
    rw [Set.eq_empty_iff_forall_not_mem]
    rintro x ⟨⟨_, hx1⟩, ⟨hx2, _⟩⟩
    have hle : ((chunkCut n fs (i.1 + 1) : Nat) : Int) ≤ chunkCut n fs j.1 :=
      hmono (by omega)
    omega
  · have hmap : (calculate_chunk_ranges n fs).map spanLength =
        (List.range n).map fun i =>
          ((chunkCut n fs (i + 1) : Nat) : Int) - ((chunkCut n fs i : Nat) : Int) := by
      unfold calculate_chunk_ranges
      rw [List.map_map]
      apply List.map_congr_left
      intro i hi
      rw [List.mem_range] at hi
      simp only [Function.comp_apply, spanLength, chunkCut]
      rcases eq_or_ne i (n - 1) with h1 | h1
      · have h2 : ¬ n ≤ i := Nat.not_le.mpr hi
        have h3 : n ≤ i + 1 := by omega
        simp only [if_pos h1, if_neg h2, if_pos h3]
        push_cast
        ring
      · have h2 : ¬ n ≤ i := Nat.not_le.mpr hi
        have h3 : ¬ n ≤ i + 1 := by omega
        simp only [if_neg h1, if_neg h2, if_neg h3]
        push_cast
        ring
    rw [hmap]
    refine (telescoping_list_sum (fun i => ((chunkCut n fs i : Nat) : Int)) n).trans ?_
    rw [hcut0, hcutn]
    simp
  · intro i
    exact calculate_chunk_ranges_get n fs i

/-- Witness for C1 at the spec example: 1000 bytes in 3 chunks. -/
theorem C1_range_partition_witness :
    (⋃ r ∈ calculate_chunk_ranges 3 1000, spanSet r) = Set.Ico (0 : Int) (1000 : Int) ∧
    ((calculate_chunk_ranges 3 1000).map spanLength).sum = (1000 : Int) ∧
    calculate_chunk_ranges 3 1000 = [(0, 0, 332), (1, 333, 665), (2, 666, 999)] :=
  ⟨(C1_range_partition 1000 3 (by decide) (by decide)).2.1,
   (C1_range_partition 1000 3 (by decide) (by decide)).2.2.2.1,
   (C1_range_partition 1000 3 (by decide) (by decide)).2.2.2.2.2⟩

/-- C2: for every task list handed to `download_multiple`, whatever completion
order the thread pool produces, the returned list contains exactly one
`DownloadResult` per submitted task (count and task multiset match the input,
order not necessarily preserved), and an exception raised by a task is caught
and converted into that task's failed `DownloadResult` instead of
propagating (the function is total and the failed result for that task is
present in the output). -/
theorem C2_scheduler_outcomes (tasks : List DownloadTask)
    (behavior : Nat → Except String Unit) (order : List Nat)
    (hperm : order.Perm (List.range tasks.length)) :
    (download_multiple tasks behavior order).length = tasks.length ∧
    ((download_multiple tasks behavior order).map DownloadResult.task).Perm tasks ∧
    ∀ i, (h : i < tasks.length) →
      download_task (tasks.get ⟨i, h⟩) (behavior i) ∈
        download_multiple tasks behavior order ∧
      ∀ e, behavior i = .error e →
        (⟨tasks.get ⟨i, h⟩, false, some e, none⟩ : DownloadResult) ∈
          download_multiple tasks behavior order := by
  have hvalid : ∀ i ∈ order, i < tasks.length := fun i hi =>
    List.mem_range.mp (hperm.mem_iff.mp hi)
  have hdm : download_multiple tasks behavior order =
      order.map fun i => download_task (tasks.getD i dummyTask) (behavior i) := by
    unfold download_multiple
    by_cases he : tasks.isEmpty
    · have h0 : tasks.length = 0 := by
        rw [List.isEmpty_iff] at he
        simp [he]
      have : order = [] := by
        have := hperm
        rw [h0, List.range_zero] at this
        exact this.eq_nil
      simp [he, this]
    · rw [if_neg he]
      exact filterMap_tasks_eq_map tasks behavior order hvalid
  have hpm : (download_multiple tasks behavior order).Perm
      ((List.range tasks.length).map fun i =>
        download_task (tasks.getD i dummyTask) (behavior i)) := by
    rw [hdm]
    exact hperm.map _
  refine ⟨?_, ?_, ?_⟩
  · rw [hdm, List.length_map, hperm.length_eq, List.length_range]
  · have h1 := hpm.map DownloadResult.task
    rw [List.map_map] at h1
    have h2 : ((List.range tasks.length).map
        (DownloadResult.task ∘ fun i => download_task (tasks.getD i dummyTask) (behavior i))) =
        tasks := by
      apply List.ext_getElem
      · simp
      · intro i hi1 hi2
        simp only [List.getElem_map, List.getElem_range, Function.comp_apply]
        cases hb : behavior i <;>
          simp [download_task, List.getD_eq_getElem?_getD, List.getElem?_eq_getElem hi2]
    rwa [h2] at h1
  · intro i h
    have hget : tasks.getD i dummyTask = tasks.get ⟨i, h⟩ := by
      rw [List.getD_eq_getElem?_getD, List.getElem?_eq_getElem h]
      rfl
    have hmem : download_task (tasks.get ⟨i, h⟩) (behavior i) ∈
        download_multiple tasks behavior order := by
      apply hpm.mem_iff.mpr
      apply List.mem_map.mpr
      exact ⟨i, List.mem_range.mpr h, by rw [hget]⟩
    refine ⟨hmem, ?_⟩
    intro e he
    have : download_task (tasks.get ⟨i, h⟩) (behavior i) =
        (⟨tasks.get ⟨i, h⟩, false, some e, none⟩ : DownloadResult) := by
      rw [he]
      rfl
    rwa [this] at hmem

/-- Witness for C2: two tasks, the second raises, completion order reversed;
both outcomes are present, the raising task yields a failed result. -/
theorem C2_scheduler_outcomes_witness :
    (download_multiple
        [⟨"u1", "f1", none, none, "md5", "f1"⟩, ⟨"u2", "f2", none, none, "md5", "f2"⟩]
        (fun i => if i = 1 then .error "boom" else .ok ()) [1, 0]).length = 2 ∧
    (⟨⟨"u2", "f2", none, none, "md5", "f2"⟩, false, some "boom", none⟩ : DownloadResult) ∈
      download_multiple
        [⟨"u1", "f1", none, none, "md5", "f1"⟩, ⟨"u2", "f2", none, none, "md5", "f2"⟩]
        (fun i => if i = 1 then .error "boom" else .ok ()) [1, 0] :=
  ⟨(C2_scheduler_outcomes _ _ _ (by decide)).1,
   ((C2_scheduler_outcomes
      [⟨"u1", "f1", none, none, "md5", "f1"⟩, ⟨"u2", "f2", none, none, "md5", "f2"⟩]
      (fun i => if i = 1 then .error "boom" else .ok ()) [1, 0]
      (by decide)).2.2 1 (by decide)).2 "boom" rfl⟩

theorem writeLoop_file (body : List (List Nat)) :
    ∀ (pd : ProgressData) (f : List Nat) (b : Nat),
      (writeLoop body pd f b).file = f ++ body.flatten := by
  induction body with
  | nil => intro pd f b; simp [writeLoop]
  | cons c rest ih =>
    intro pd f b
    cases hc : c.isEmpty with
    | true =>
      have hcn : c = [] := by simpa using hc
      simp [writeLoop, hc, ih, hcn]
    | false =>
      simp [writeLoop, hc, ih]

theorem writeLoop_downloaded_bytes (body : List (List Nat)) :
    ∀ (pd : ProgressData) (f : List Nat) (b : Nat),
      (writeLoop body pd f b).pd.downloaded_bytes =
        pd.downloaded_bytes + body.flatten.length := by
  induction body with
  | nil => intro pd f b; simp [writeLoop]
  | cons c rest ih =>
    intro pd f b
    cases hc : c.isEmpty with
    | true =>
      have hcn : c = [] := by simpa using hc
      simp [writeLoop, hc, ih, hcn]
    | false =>
      simp [writeLoop, hc, ih]
      omega

theorem attemptWrite_mode_wb (es : Option Nat) (rf : Nat) (pd : ProgressData)
    (file : Option (List Nat)) (body : List (List Nat)) (intr : Bool) :
    (attemptWrite es rf pd file body intr).mode_wb = some (!(decide (0 < rf))) := by
  unfold attemptWrite
  cases intr <;> simp

theorem attemptWrite_st_file (es : Option Nat) (rf : Nat) (pd : ProgressData)
    (file : Option (List Nat)) (body : List (List Nat)) (intr : Bool) :
    (attemptWrite es rf pd file body intr).st.file =
      some ((if decide (0 < rf) = true then file.getD [] else []) ++ body.flatten) := by
  unfold attemptWrite
  cases intr <;> simp [writeLoop_file]

theorem attemptWrite_st_downloaded_bytes (es : Option Nat) (rf : Nat) (pd : ProgressData)
    (file : Option (List Nat)) (body : List (List Nat)) (intr : Bool) :
    (attemptWrite es rf pd file body intr).st.pd.downloaded_bytes =
      pd.downloaded_bytes + body.flatten.length := by
  unfold attemptWrite
  cases intr <;> simp [writeLoop_downloaded_bytes]

/-- C5: on every attempt that requested a resume (resume point > 0) and got
HTTP 200 instead of 206 (and whose declared length does not conflict with the
caller-supplied expected size, which would abort before any write), the
downloader discards the existing partial file, resets the resume point and the
recorded `downloaded_bytes` to 0 (the first trace record is the reset-to-zero
record), and writes the body from byte 0 in truncating `wb` mode: the
resulting file is exactly the response body, regardless of the prior partial
content, and the final byte count restarts from zero. -/
theorem C5_http200_restart (url : String) (expected_size : Option Nat)
    (s : AttemptState) (cl : Option Nat) (body : List (List Nat))
    (hres : 0 < s.resume_from)
    (hsz : match cl, expected_size with
      | some n, some e => e = 0 ∨ n = e
      | _, _ => True) :
    (attempt url expected_size s (.http 200 cl body false)).mode_wb = some true ∧
    (attempt url expected_size s (.http 200 cl body false)).st.file = some body.flatten ∧
    (attempt url expected_size s (.http 200 cl body false)).trace.head? =
      some ⟨true, { s.pd with downloaded_bytes := 0 }⟩ ∧
    (attempt url expected_size s (.http 200 cl body false)).st.pd.downloaded_bytes =
      body.flatten.length := by
  obtain ⟨rf, spd, sfile⟩ := s
  cases rf with
  | zero => exact absurd hres (by norm_num)
  | succ k =>
    cases cl with
    | none =>
      refine ⟨?_, ?_, ?_, ?_⟩
      · simp [attempt, attemptWrite_mode_wb]
      · simp [attempt, attemptWrite_st_file]
      · simp [attempt]
      · simp [attempt, attemptWrite_st_downloaded_bytes]
    | some n =>
      have hfalse : contentCheck expected_size n = false := by
        cases expected_size with
        | none => rfl
        | some e =>
          rcases hsz with h | h <;> simp [contentCheck, h]
      have hdb : ∀ pd2 : ProgressData, (recordTotal pd2 n).downloaded_bytes =
          pd2.downloaded_bytes := by
        intro pd2
        unfold recordTotal
        split <;> rfl
      refine ⟨?_, ?_, ?_, ?_⟩
      · simp [attempt, hfalse, attemptWrite_mode_wb]
      · simp [attempt, hfalse, attemptWrite_st_file]
      · simp [attempt, hfalse]
      · simp [attempt, hfalse, attemptWrite_st_downloaded_bytes, hdb]

/-- Witness for C5 at a concrete resumed transfer answered with HTTP 200. -/
theorem C5_http200_restart_witness :
    (attempt "u" none ⟨5, ⟨"u", "d", none, 5, none, "md5", "in_progress"⟩, some [9, 9, 9, 9, 9]⟩
        (.http 200 none [[1, 2], [3]] false)).mode_wb = some true ∧
    (attempt "u" none ⟨5, ⟨"u", "d", none, 5, none, "md5", "in_progress"⟩, some [9, 9, 9, 9, 9]⟩
        (.http 200 none [[1, 2], [3]] false)).st.file = some [1, 2, 3] ∧
    (attempt "u" none ⟨5, ⟨"u", "d", none, 5, none, "md5", "in_progress"⟩, some [9, 9, 9, 9, 9]⟩
        (.http 200 none [[1, 2], [3]] false)).trace.head? =
      some ⟨true, ⟨"u", "d", none, 0, none, "md5", "in_progress"⟩⟩ ∧
    (attempt "u" none ⟨5, ⟨"u", "d", none, 5, none, "md5", "in_progress"⟩, some [9, 9, 9, 9, 9]⟩
        (.http 200 none [[1, 2], [3]] false)).st.pd.downloaded_bytes = 3 :=
  C5_http200_restart "u" none
    ⟨5, ⟨"u", "d", none, 5, none, "md5", "in_progress"⟩, some [9, 9, 9, 9, 9]⟩
    none [[1, 2], [3]] (by decide) (by trivial)

theorem size_conflict_iff (ts es : Option Nat) :
    (match ts, es with
      | some t, some e => t != 0 && e != 0 && t != e
      | _, _ => false) = true ↔
      ∃ t e, ts = some t ∧ es = some e ∧ t ≠ 0 ∧ e ≠ 0 ∧ t ≠ e := by
  cases ts with
  | none => simp
  | some t =>
    cases es with
    | none => simp
    | some e =>
      simp only [Bool.and_eq_true, bne_iff_ne, ne_eq]
      constructor
      · rintro ⟨⟨h1, h2⟩, h3⟩
        exact ⟨t, e, rfl, rfl, h1, h2, h3⟩
      · rintro ⟨t2, e2, ht, he, h1, h2, h3⟩
        cases ht
        cases he
        exact ⟨⟨h1, h2⟩, h3⟩

/-- C4 counterexample: a prior record whose stored URL differs from the
requested one is discarded and the transfer restarts from byte 0, but —
contrary to the claim that every validation failure deletes the stale partial
file — the partial file is left on disk. -/
theorem C4_counterexample :
    (probe_resume "http://a/f" none
        (some ⟨"http://b/f", "d", none, 1, none, "md5", "in_progress"⟩)
        (some [9])).pd = none ∧
    (probe_resume "http://a/f" none
        (some ⟨"http://b/f", "d", none, 1, none, "md5", "in_progress"⟩)
        (some [9])).resume_from = 0 ∧
    (probe_resume "http://a/f" none
        (some ⟨"http://b/f", "d", none, 1, none, "md5", "in_progress"⟩)
        (some [9])).file = some [9] := by
  refine ⟨?_, ?_, ?_⟩ <;> decide

/-- C4 (amended): when a prior record exists, (a) a stored-URL mismatch
discards the prior state and resumes from byte 0 but leaves the stale partial
file on disk (it is only truncated later by the fresh `wb` write); (b)
likewise when the stored total size and the caller-supplied expected size are
both present, both non-zero (Python truthiness) and disagree; (c) when the
on-disk partial file's length differs from the stored `downloadedBytes` (or
the file is absent), the prior state is discarded, the stale partial file IS
deleted from disk, and the transfer resumes from byte 0; otherwise the resume
point equals the stored `downloadedBytes` and the state is kept. -/
theorem C4_resume_validation (url : String) (expected_size : Option Nat)
    (pd : ProgressData) (file : Option (List Nat)) :
    (pd.url ≠ url →
      probe_resume url expected_size (some pd) file = ⟨none, 0, file⟩) ∧
    (pd.url = url →
      (∃ t e, pd.total_size = some t ∧ expected_size = some e ∧ t ≠ 0 ∧ e ≠ 0 ∧ t ≠ e) →
      probe_resume url expected_size (some pd) file = ⟨none, 0, file⟩) ∧
    (pd.url = url →
      ¬ (∃ t e, pd.total_size = some t ∧ expected_size = some e ∧ t ≠ 0 ∧ e ≠ 0 ∧ t ≠ e) →
      validate_partial_file file (some pd.downloaded_bytes) = false →
      probe_resume url expected_size (some pd) file = ⟨none, 0, none⟩) ∧
    (pd.url = url →
      ¬ (∃ t e, pd.total_size = some t ∧ expected_size = some e ∧ t ≠ 0 ∧ e ≠ 0 ∧ t ≠ e) →
      validate_partial_file file (some pd.downloaded_bytes) = true →
      probe_resume url expected_size (some pd) file =
        ⟨some pd, pd.downloaded_bytes, file⟩) := by
  refine ⟨?_, ?_, ?_, ?_⟩
  · intro h
    simp only [probe_resume]
    rw [if_pos h]
  · intro h1 h2
    simp only [probe_resume]
    rw [if_neg (by simp [h1]), if_pos ((size_conflict_iff pd.total_size expected_size).mpr h2)]
  · intro h1 h2 h3
    simp only [probe_resume]
    rw [if_neg (by simp [h1]),
      if_neg (by rw [size_conflict_iff]; exact h2)]
    simp [h3]
  · intro h1 h2 h3
    simp only [probe_resume]
    rw [if_neg (by simp [h1]),
      if_neg (by rw [size_conflict_iff]; exact h2)]
    simp [h3]

/-- Witness for C4 (amended) at concrete inputs exercising branches (a) and
(c). -/
theorem C4_resume_validation_witness :
    probe_resume "http://a/f" none
        (some ⟨"http://b/f", "d", none, 1, none, "md5", "in_progress"⟩) (some [9]) =
      ⟨none, 0, some [9]⟩ ∧
    probe_resume "http://a/f" none
        (some ⟨"http://a/f", "d", none, 5, none, "md5", "in_progress"⟩) (some [9, 9, 9]) =
      ⟨none, 0, none⟩ :=
  ⟨(C4_resume_validation "http://a/f" none
      ⟨"http://b/f", "d", none, 1, none, "md5", "in_progress"⟩ (some [9])).1 (by decide),
   (C4_resume_validation "http://a/f" none
      ⟨"http://a/f", "d", none, 5, none, "md5", "in_progress"⟩ (some [9, 9, 9])).2.2.1
      rfl (by rintro ⟨t, e, _, he, _⟩; cases he) (by decide)⟩

theorem runLoop_delays (url : String) (es : Option Nat) (bd md : Nat)
    (responses : Nat → Response) :
    ∀ fuel a s p, p ∈ (runLoop url es bd md responses fuel a s).delays →
      p.2 = min (bd * 2 ^ (p.1 + 1)) md := by
  intro fuel
  induction fuel with
  | zero =>
    intro a s p hp
    simp [runLoop] at hp
  | succ fuel ih =>
    intro a s p hp
    rw [runLoop.eq_def] at hp
    dsimp only at hp
    cases ho : (attempt url es s (responses a)).outcome with
    | success => rw [ho] at hp; simp at hp
    | fatal m => rw [ho] at hp; simp at hp
    | retryable =>
      rw [ho] at hp
      cases fuel with
      | zero => simp at hp
      | succ fuel2 =>
        rcases List.mem_cons.mp hp with hp | hp
        · rw [hp]
        · exact ih (a + 1) _ p hp

/-- C8 (amended): every backoff sleep performed by the single-stream
downloader after a retryable failure of attempt `a` (0-indexed, with a further
attempt remaining) lasts `min(base_delay * 2 ** (a + 1), max_delay)` — the
attempt counter is incremented before the delay is computed, so the first
sleep is `2 * base_delay`, not `base_delay`. -/
theorem C8_backoff_delay (url destination : String) (expected_size : Option Nat)
    (checksum : Option String) (checksum_type : String)
    (prior : Option ProgressData) (file0 : Option (List Nat))
    (responses : Nat → Response) (max_retries base_delay max_delay : Nat) :
    ∀ p ∈ (download_with_resume url destination expected_size checksum checksum_type
        prior file0 responses max_retries base_delay max_delay).delays,
      p.2 = min (base_delay * 2 ^ (p.1 + 1)) max_delay := by
  intro p hp
  exact runLoop_delays url expected_size base_delay max_delay responses max_retries 0 _ p hp

/-- C8 counterexample: with `base_delay = 1`, `max_delay = 60`,
`max_retries = 3` and every attempt timing out, the sleeps actually performed
are 2 s then 4 s; the claim's formula for the first failed attempt (index 0)
gives `min(1 * 2 ** 0, 60) = 1`, and no 1-second sleep occurs. -/
theorem C8_counterexample :
    (download_with_resume "u" "d" none none "md5" none none (fun _ => .timeout)
        3 1 60).delays = [(0, 2), (1, 4)] ∧
    ((0 : Nat), (min (1 * 2 ^ 0) 60 : Nat)) ∉
      (download_with_resume "u" "d" none none "md5" none none (fun _ => .timeout)
        3 1 60).delays := by
  refine ⟨?_, ?_⟩ <;> decide

/-- Witness for C8 (amended) at the first performed sleep of a concrete run. -/
theorem C8_backoff_delay_witness :
    ((0, 2) : Nat × Nat) ∈ (download_with_resume "u" "d" none none "md5" none none
        (fun _ => .timeout) 3 1 60).delays ∧
    (2 : Nat) = min (1 * 2 ^ (0 + 1)) 60 :=
  ⟨by decide,
   C8_backoff_delay "u" "d" none none "md5" none none (fun _ => .timeout) 3 1 60
     (0, 2) (by decide)⟩

theorem stepOk_of_le {a b : TraceEntry}
    (h : a.pd.downloaded_bytes ≤ b.pd.downloaded_bytes) : stepOk a b := Or.inl h

theorem stepOk_mono_left {x x2 y : TraceEntry}
    (h : x2.pd.downloaded_bytes ≤ x.pd.downloaded_bytes) (h1 : stepOk x y) : stepOk x2 y := by
  rcases h1 with h1 | h1
  · exact Or.inl (le_trans h h1)
  · exact Or.inr h1

theorem stepOk_trans_mid {x m y : TraceEntry} (hm : m.reset200 = false)
    (h1 : stepOk x m) (h2 : stepOk m y) : stepOk x y := by
  rcases h1 with h1 | h1
  · rcases h2 with h2 | h2
    · exact Or.inl (le_trans h1 h2)
    · exact Or.inr h2
  · exfalso
    rw [hm] at h1
    exact Bool.false_ne_true h1.1

theorem chain'_pair (a b : TraceEntry) (h : stepOk a b) : List.Chain' stepOk [a, b] :=
  List.chain'_cons.mpr ⟨h, List.chain'_singleton b⟩

theorem chain'_glue (L T : List TraceEntry) (m : TraceEntry) (hm : m.reset200 = false)
    (h1 : List.Chain' stepOk (L ++ [m])) (h2 : List.Chain' stepOk (m :: T)) :
    List.Chain' stepOk (L ++ T) := by
  rcases List.chain'_append.mp h1 with ⟨hL, _, hLm⟩
  rcases List.chain'_cons'.mp h2 with ⟨hmT, hT⟩
  refine List.chain'_append.mpr ⟨hL, hT, ?_⟩
  intro x hx y hy
  exact stepOk_trans_mid hm (hLm x hx m rfl) (hmT y hy)

theorem writeLoop_chain (body : List (List Nat)) :
    ∀ (pd : ProgressData) (f : List Nat) (b : Nat) (e : TraceEntry)
      (tail : List TraceEntry),
      e.pd.downloaded_bytes ≤ pd.downloaded_bytes →
      List.Chain' stepOk (⟨false, (writeLoop body pd f b).pd⟩ :: tail) →
      List.Chain' stepOk (e :: ((writeLoop body pd f b).trace ++ tail)) := by
  induction body with
  | nil =>
    intro pd f b e tail he htail
    simp only [writeLoop, List.nil_append]
    rcases List.chain'_cons'.mp htail with ⟨hh, ht⟩
    exact List.chain'_cons'.mpr ⟨fun y hy => stepOk_mono_left he (hh y hy), ht⟩
  | cons c rest ih =>
    intro pd f b e tail he htail
    cases hc : c.isEmpty with
    | true =>
      have heq : writeLoop (c :: rest) pd f b = writeLoop rest pd f b := by
        simp [writeLoop, hc]
      rw [heq] at htail ⊢
      exact ih pd f b e tail he htail
    | false =>
      have htr : (writeLoop (c :: rest) pd f b).trace =
          ⟨false, { pd with downloaded_bytes := pd.downloaded_bytes + c.length }⟩ ::
            (writeLoop rest { pd with downloaded_bytes := pd.downloaded_bytes + c.length }
              (f ++ c)
              (if save_interval ≤ b + c.length then 0 else b + c.length)).trace := by
        simp [writeLoop, hc]
      have hpd : (writeLoop (c :: rest) pd f b).pd =
          (writeLoop rest { pd with downloaded_bytes := pd.downloaded_bytes + c.length }
            (f ++ c)
            (if save_interval ≤ b + c.length then 0 else b + c.length)).pd := by
        simp [writeLoop, hc]
      rw [htr, List.cons_append]
      rw [hpd] at htail
      refine List.chain'_cons.mpr ⟨Or.inl (le_trans he (Nat.le_add_right _ _)), ?_⟩
      exact ih _ _ _ _ tail (le_refl _) htail

theorem attemptWrite_trace_interrupted (es : Option Nat) (rf : Nat) (pd : ProgressData)
    (file : Option (List Nat)) (body : List (List Nat)) :
    (attemptWrite es rf pd file body true).trace =
      (writeLoop body pd (if decide (0 < rf) = true then file.getD [] else []) 0).trace := by
  simp [attemptWrite]

theorem attemptWrite_st_pd_interrupted (es : Option Nat) (rf : Nat) (pd : ProgressData)
    (file : Option (List Nat)) (body : List (List Nat)) :
    (attemptWrite es rf pd file body true).st.pd =
      (writeLoop body pd (if decide (0 < rf) = true then file.getD [] else []) 0).pd := by
  simp [attemptWrite]

theorem attemptWrite_trace_completed (es : Option Nat) (rf : Nat) (pd : ProgressData)
    (file : Option (List Nat)) (body : List (List Nat)) :
    (attemptWrite es rf pd file body false).trace =
      (writeLoop body pd (if decide (0 < rf) = true then file.getD [] else []) 0).trace ++
        [⟨false, { (writeLoop body pd
          (if decide (0 < rf) = true then file.getD [] else []) 0).pd with
            status := "complete" }⟩] := by
  simp [attemptWrite]

theorem attemptWrite_st_pd_completed (es : Option Nat) (rf : Nat) (pd : ProgressData)
    (file : Option (List Nat)) (body : List (List Nat)) :
    (attemptWrite es rf pd file body false).st.pd =
      { (writeLoop body pd
          (if decide (0 < rf) = true then file.getD [] else []) 0).pd with
        status := "complete" } := by
  simp [attemptWrite]

theorem attemptWrite_chain (es : Option Nat) (rf : Nat) (pd : ProgressData)
    (file : Option (List Nat)) (body : List (List Nat)) (intr : Bool)
    (e : TraceEntry) (he : e.pd.downloaded_bytes ≤ pd.downloaded_bytes) :
    List.Chain' stepOk (e :: ((attemptWrite es rf pd file body intr).trace ++
      [⟨false, (attemptWrite es rf pd file body intr).st.pd⟩])) := by
  cases intr with
  | true =>
    rw [attemptWrite_trace_interrupted, attemptWrite_st_pd_interrupted]
    exact writeLoop_chain body pd _ 0 e _ he (chain'_pair _ _ (Or.inl (le_refl _)))
  | false =>
    rw [attemptWrite_trace_completed, attemptWrite_st_pd_completed, List.append_assoc]
    apply writeLoop_chain body pd _ 0 e _ he
    exact List.chain'_cons.mpr
      ⟨Or.inl (le_refl _), chain'_pair _ _ (Or.inl (le_refl _))⟩

theorem recordTotal_downloaded_bytes (pd : ProgressData) (total : Nat) :
    (recordTotal pd total).downloaded_bytes = pd.downloaded_bytes := by
  unfold recordTotal
  split <;> rfl

theorem attempt_chain (url : String) (es : Option Nat) (s : AttemptState) (r : Response) :
    List.Chain' stepOk (⟨false, s.pd⟩ :: ((attempt url es s r).trace ++
      [⟨false, (attempt url es s r).st.pd⟩])) := by
  cases r with
  | timeout => exact chain'_pair _ _ (Or.inl (le_refl _))
  | http status cl body intr =>
    by_cases h1 : status = 404
    · simp only [attempt, if_pos h1]
      exact chain'_pair _ _ (Or.inl (le_refl _))
    · by_cases h2 : status = 403
      · simp only [attempt, if_neg h1, if_pos h2]
        exact chain'_pair _ _ (Or.inl (le_refl _))
      · by_cases h3 : status = 416
        · by_cases hv : validate_partial_file s.file es = true
          · simp only [attempt, if_neg h1, if_neg h2, if_pos h3, if_pos hv,
              List.cons_append, List.singleton_append]
            exact List.chain'_cons.mpr
              ⟨Or.inl (le_refl _), chain'_pair _ _ (Or.inl (le_refl _))⟩
          · simp only [attempt, if_neg h1, if_neg h2, if_pos h3, if_neg hv]
            exact chain'_pair _ _ (Or.inl (le_refl _))
        · by_cases h4 : 400 ≤ status
          · by_cases h5 : 500 ≤ status ∧ status < 600
            · simp only [attempt, if_neg h1, if_neg h2, if_neg h3, if_pos h4, if_pos h5]
              exact chain'_pair _ _ (Or.inl (le_refl _))
            · simp only [attempt, if_neg h1, if_neg h2, if_neg h3, if_pos h4, if_neg h5]
              exact chain'_pair _ _ (Or.inl (le_refl _))
          · by_cases h6 : status = 200 ∧ 0 < s.resume_from
            · cases cl with
              | none =>
                simp only [attempt, if_neg h1, if_neg h2, if_neg h3, if_neg h4, if_pos h6,
                  List.cons_append, List.singleton_append]
                refine List.chain'_cons.mpr ⟨Or.inr ⟨rfl, rfl⟩, ?_⟩
                exact attemptWrite_chain es 0 { s.pd with downloaded_bytes := 0 } none body
                  intr ⟨true, { s.pd with downloaded_bytes := 0 }⟩ (le_refl _)
              | some n =>
                have h206 : ¬ status = 206 := by
                  rw [h6.1]
                  norm_num
                by_cases hB : contentCheck es n = true
                · simp only [attempt, if_neg h1, if_neg h2, if_neg h3, if_neg h4, if_pos h6,
                    if_neg h206, hB, eq_self_iff_true, if_true,
                    List.cons_append, List.singleton_append]
                  refine List.chain'_cons.mpr ⟨Or.inr ⟨rfl, rfl⟩, ?_⟩
                  refine List.chain'_cons.mpr ⟨Or.inl ?_, List.chain'_singleton _⟩
                  rw [recordTotal_downloaded_bytes]
                · simp only [attempt, if_neg h1, if_neg h2, if_neg h3, if_neg h4, if_pos h6,
                    if_neg h206, if_neg hB, List.cons_append, List.singleton_append]
                  refine List.chain'_cons.mpr ⟨Or.inr ⟨rfl, rfl⟩, ?_⟩
                  refine attemptWrite_chain _ _ _ _ _ _ _ ?_
                  rw [recordTotal_downloaded_bytes]
            · cases cl with
              | none =>
                simp only [attempt, if_neg h1, if_neg h2, if_neg h3, if_neg h4, if_neg h6,
                  List.nil_append]
                exact attemptWrite_chain es s.resume_from s.pd s.file body intr
                  ⟨false, s.pd⟩ (le_refl _)
              | some n =>
                by_cases hB : contentCheck es
                    (if status = 206 then s.resume_from + n else n) = true
                · simp only [attempt, if_neg h1, if_neg h2, if_neg h3, if_neg h4, if_neg h6,
                    hB, eq_self_iff_true, if_true, List.nil_append]
                  refine chain'_pair _ _ (Or.inl ?_)
                  rw [recordTotal_downloaded_bytes]
                · simp only [attempt, if_neg h1, if_neg h2, if_neg h3, if_neg h4, if_neg h6,
                    if_neg hB, List.nil_append]
                  refine attemptWrite_chain _ _ _ _ _ _ _ ?_
                  rw [recordTotal_downloaded_bytes]

theorem runLoop_chain (url : String) (es : Option Nat) (bd md : Nat)
    (responses : Nat → Response) :
    ∀ fuel a s,
      List.Chain' stepOk
        ((⟨false, s.pd⟩ :: (runLoop url es bd md responses fuel a s).trace) ++
          [⟨false, (runLoop url es bd md responses fuel a s).final.pd⟩]) := by
  intro fuel
  induction fuel with
  | zero =>
    intro a s
    exact chain'_pair _ _ (Or.inl (le_refl _))
  | succ fuel ih =>
    intro a s
    rw [runLoop.eq_def]
    dsimp only
    cases ho : (attempt url es s (responses a)).outcome with
    | success =>
      simp only [ho]
      exact attempt_chain url es s (responses a)
    | fatal m =>
      simp only [ho]
      exact attempt_chain url es s (responses a)
    | retryable =>
      simp only [ho]
      cases fuel with
      | zero =>
        exact attempt_chain url es s (responses a)
      | succ fuel2 =>
        dsimp only
        have hA : List.Chain' stepOk
            ((⟨false, s.pd⟩ :: (attempt url es s (responses a)).trace) ++
              [⟨false, (attempt url es s (responses a)).st.pd⟩]) :=
          attempt_chain url es s (responses a)
        have hB : List.Chain' stepOk
            (⟨false, (attempt url es s (responses a)).st.pd⟩ ::
              ((runLoop url es bd md responses (fuel2 + 1) (a + 1)
                  (attempt url es s (responses a)).st).trace ++
                [⟨false, (runLoop url es bd md responses (fuel2 + 1) (a + 1)
                  (attempt url es s (responses a)).st).final.pd⟩])) :=
          ih (a + 1) (attempt url es s (responses a)).st
        have hG := chain'_glue
          (⟨false, s.pd⟩ :: (attempt url es s (responses a)).trace)
          ((runLoop url es bd md responses (fuel2 + 1) (a + 1)
              (attempt url es s (responses a)).st).trace ++
            [⟨false, (runLoop url es bd md responses (fuel2 + 1) (a + 1)
              (attempt url es s (responses a)).st).final.pd⟩])
          ⟨false, (attempt url es s (responses a)).st.pd⟩ rfl hA hB
        simp only [List.cons_append, List.append_assoc] at hG ⊢
        exact hG

/-- C3 (amended): over any full run of `download_with_resume`, between two
consecutively recorded values of the progress dictionary the
`downloaded_bytes` field never decreases, with a single exception: the record
made by the HTTP-200-after-resume restart branch, which resets it to 0.  (The
claim as stated — monotonic while `status = in_progress` with no exception —
fails exactly at that restart record; see the counterexample.) -/
theorem C3_monotonicity_amended (url destination : String) (expected_size : Option Nat)
    (checksum : Option String) (checksum_type : String)
    (prior : Option ProgressData) (file0 : Option (List Nat))
    (responses : Nat → Response) (max_retries base_delay max_delay : Nat) :
    List.Chain' stepOk (download_with_resume url destination expected_size checksum
      checksum_type prior file0 responses max_retries base_delay max_delay).trace := by
  have h := runLoop_chain url expected_size base_delay max_delay responses max_retries 0
    ⟨(probe_resume url expected_size prior file0).resume_from,
     (match (probe_resume url expected_size prior file0).pd with
      | some pd => pd
      | none => ⟨url, destination, expected_size, 0, checksum, checksum_type,
          "in_progress"⟩),
     (probe_resume url expected_size prior file0).file⟩
  exact (List.chain'_append.mp h).1

/-- C3 counterexample: resuming from byte 5 with a valid prior in-progress
record, the server answers HTTP 200, and the code records
`downloaded_bytes = 0` (then 3, then 5) while the status is still
`in_progress` — after having recorded 5 — so `downloadedBytes` is not
monotonically non-decreasing over the in-progress records. -/
theorem C3_counterexample :
    traceMonotoneInProgress
      (download_with_resume "u" "d" none none "md5"
        (some ⟨"u", "d", some 10, 5, none, "md5", "in_progress"⟩)
        (some [1, 2, 3, 4, 5])
        (fun _ => .http 200 (some 10) [[7, 7, 7], [8, 8]] false)
        3 1 60).trace = false := by decide

theorem download_chunk_error_flag (behavior : Nat → ChunkAttemptOutcome) :
    ∀ fuel a file, 1 ≤ fuel →
      (download_chunk behavior fuel a file).1 = false →
      (download_chunk behavior fuel a file).2.2 = true := by
  intro fuel
  induction fuel with
  | zero =>
    intro a file h
    exact absurd h (by norm_num)
  | succ fuel ih =>
    intro a file _ hf
    cases fuel with
    | zero =>
      cases hb : behavior a with
      | ok body => simp [download_chunk, hb] at hf
      | failNoWrite => simp [download_chunk, hb]
      | failMidWrite w => simp [download_chunk, hb]
    | succ fuel2 =>
      have hf2 : (download_chunk behavior (Nat.succ (Nat.succ fuel2)) a file).1 = false := hf
      have hout : (download_chunk behavior (Nat.succ (Nat.succ fuel2)) a file).2.2 = true →
          (download_chunk behavior (fuel2 + 1 + 1) a file).2.2 = true := fun h => h
      apply hout
      cases hb : behavior a with
      | ok body =>
        rw [download_chunk.eq_3, hb] at hf2
        simp at hf2
      | failNoWrite =>
        rw [download_chunk.eq_3, hb] at hf2 ⊢
        exact ih (a + 1) file (by norm_num) hf2
      | failMidWrite w =>
        rw [download_chunk.eq_3, hb] at hf2 ⊢
        exact ih (a + 1) (some w.flatten) (by norm_num) hf2

/-- C6 (amended): for every chunked download whose HEAD probe succeeded and
whose per-chunk retry budget is at least 1, if any chunk exhausts its retries
(its `download_chunk` returns `False`), the whole download reports failure, no
destination file is produced or modified, and every temporary chunk file and
the temporary holding directory are deleted before the invocation returns.
(With `max_retries = 0` the code records no error, runs the merge, creates an
empty destination file and leaks the temp directory; see the
counterexample.) -/
theorem C6_chunk_failure_cleanup (num_chunks max_retries head_size : Nat)
    (expected_size : Option Nat) (behavior : Nat → Nat → ChunkAttemptOutcome)
    (dest0 : Option (List Nat))
    (hmr : 1 ≤ max_retries)
    (hhs : head_size ≠ 0)
    (hes : contentCheck expected_size head_size = false)
    (hfail : ∃ c, c < num_chunks ∧
      (download_chunk (behavior c) max_retries 0 none).1 = false) :
    (ChunkDownloader.download num_chunks max_retries true (some head_size)
      expected_size behavior dest0).result = false ∧
    (ChunkDownloader.download num_chunks max_retries true (some head_size)
      expected_size behavior dest0).chunkFiles = List.replicate num_chunks none ∧
    (ChunkDownloader.download num_chunks max_retries true (some head_size)
      expected_size behavior dest0).tempDir = false ∧
    (ChunkDownloader.download num_chunks max_retries true (some head_size)
      expected_size behavior dest0).dest = dest0 := by
  obtain ⟨c, hc, hfc⟩ := hfail
  have hflag := download_chunk_error_flag (behavior c) max_retries 0 none hmr hfc
  have hany : (((List.range num_chunks).map fun c2 =>
      download_chunk (behavior c2) max_retries 0 none).any fun o => o.2.2) = true := by
    rw [List.any_eq_true]
    refine ⟨download_chunk (behavior c) max_retries 0 none, ?_, hflag⟩
    exact List.mem_map.mpr ⟨c, List.mem_range.mpr hc, rfl⟩
  refine ⟨?_, ?_, ?_, ?_⟩ <;>
    simp only [ChunkDownloader.download, Option.getD_some, not_true, false_or,
      if_neg hhs, hes, Bool.false_eq_true, if_false, hany, eq_self_iff_true, if_true]
  rw [List.map_map]
  rw [show ((fun _ => (none : Option (List Nat))) ∘ fun c2 =>
      download_chunk (behavior c2) max_retries 0 none) =
      fun _ => (none : Option (List Nat)) from rfl]
  rw [List.map_const', List.length_range]

/-- C6 counterexample: with a retry budget of zero, the failing chunk records
no error (chunk_downloader.py line 180 returns without appending to
`self.errors`), so the merge path runs: the destination is opened truncating
(an empty destination file is produced) and the temp directory is never
removed, contradicting the claim that every temp artifact is deleted and no
destination is produced whenever a chunk exhausts its retry budget. -/
theorem C6_counterexample :
    (download_chunk (fun _ => ChunkAttemptOutcome.failNoWrite) 0 0 none).1 = false ∧
    ChunkDownloader.download 1 0 true (some 5) none (fun _ _ => .failNoWrite) none =
      ⟨false, [none], true, some []⟩ := by
  refine ⟨?_, ?_⟩ <;> decide

/-- Witness for C6 (amended): two chunks, budget one attempt, the second chunk
fails; everything is cleaned up and the pre-existing destination is kept. -/
theorem C6_chunk_failure_cleanup_witness :
    (ChunkDownloader.download 2 1 true (some 5) none
      (fun c _ => if c = 0 then ChunkAttemptOutcome.ok [[1]] else .failNoWrite)
      (some [42])).result = false ∧
    (ChunkDownloader.download 2 1 true (some 5) none
      (fun c _ => if c = 0 then ChunkAttemptOutcome.ok [[1]] else .failNoWrite)
      (some [42])).chunkFiles = List.replicate 2 none ∧
    (ChunkDownloader.download 2 1 true (some 5) none
      (fun c _ => if c = 0 then ChunkAttemptOutcome.ok [[1]] else .failNoWrite)
      (some [42])).tempDir = false ∧
    (ChunkDownloader.download 2 1 true (some 5) none
      (fun c _ => if c = 0 then ChunkAttemptOutcome.ok [[1]] else .failNoWrite)
      (some [42])).dest = some [42] :=
  C6_chunk_failure_cleanup 2 1 5 none
    (fun c _ => if c = 0 then ChunkAttemptOutcome.ok [[1]] else .failNoWrite)
    (some [42]) (by decide) (by decide) (by decide) ⟨1, by decide, by decide⟩

theorem readChunksAux_flatten (c : Nat) (hc : 1 ≤ c) :
    ∀ fuel content, content.length ≤ fuel →
      (readChunksAux c fuel content).flatten = content := by
  intro fuel
  induction fuel with
  | zero =>
    intro content h
    have hnil : content = [] := List.eq_nil_of_length_eq_zero (by omega)
    simp [readChunksAux, hnil]
  | succ fuel ih =>
    intro content h
    by_cases h2 : c = 0 ∨ content = []
    · rcases h2 with h2 | h2
      · omega
      · simp [readChunksAux, h2]
    · rw [readChunksAux, if_neg h2, List.flatten_cons]
      push_neg at h2
      rw [ih (content.drop c) (by
        rw [List.length_drop]
        have : 0 < content.length := List.length_pos.mpr h2.2
        omega)]
      exact List.take_append_drop c content

theorem readChunks_flatten (c : Nat) (content : List Nat) (hc : 1 ≤ c) :
    (readChunks c content).flatten = content :=
  readChunksAux_flatten c hc content.length content (le_refl _)

/-- C7: calling the verifier with an expected value equal to `"skip"` in any
letter case succeeds without opening or reading the file and without raising,
for every file (including absent ones) and every algorithm string (including
unsupported ones); for any other expected value the comparison of the computed
hex digest against the expected hex string is case-insensitive (success iff
the lower-cased digest equals the lower-cased expected string). -/
theorem C7_skip_sentinel (md5fn sha256fn : List Nat → String)
    (file : Option (List Nat)) (checksum_type : String) (expected : String)
    (content : List Nat) :
    (pyLower expected = "skip" →
      validate_checksum md5fn sha256fn file expected checksum_type =
        ⟨.ok true, false⟩) ∧
    (pyLower expected ≠ "skip" → pyLower checksum_type = "md5" →
      ((validate_checksum md5fn sha256fn (some content) expected
          checksum_type).result = .ok true ↔
        pyLower (md5fn content) = pyLower expected)) ∧
    (pyLower expected ≠ "skip" → pyLower checksum_type = "sha256" →
      ((validate_checksum md5fn sha256fn (some content) expected
          checksum_type).result = .ok true ↔
        pyLower (sha256fn content) = pyLower expected)) := by
  refine ⟨?_, ?_, ?_⟩
  · intro h
    unfold validate_checksum
    rw [if_pos h]
  · intro h1 h2
    have hcc : calculate_checksum md5fn sha256fn (some content) checksum_type 8192 =
        .ok (md5fn content) := by
      unfold calculate_checksum
      rw [if_pos h2]
      dsimp only
      rw [readChunks_flatten 8192 content (by norm_num)]
    unfold validate_checksum
    rw [if_neg h1, hcc]
    dsimp only
    by_cases hcmp : pyLower (md5fn content) = pyLower expected
    · rw [if_pos hcmp]
      simp [hcmp]
    · rw [if_neg hcmp]
      simp [hcmp]
  · intro h1 h2
    have hmd : ¬ pyLower checksum_type = "md5" := by
      rw [h2]
      decide
    have hcc : calculate_checksum md5fn sha256fn (some content) checksum_type 8192 =
        .ok (sha256fn content) := by
      unfold calculate_checksum
      rw [if_neg hmd, if_pos h2]
      dsimp only
      rw [readChunks_flatten 8192 content (by norm_num)]
    unfold validate_checksum
    rw [if_neg h1, hcc]
    dsimp only
    by_cases hcmp : pyLower (sha256fn content) = pyLower expected
    · rw [if_pos hcmp]
      simp [hcmp]
    · rw [if_neg hcmp]
      simp [hcmp]

/-- Witness for C7: `"SKIP"` succeeds on an absent file with an unsupported
algorithm name without reading anything; a case-differing digest still
validates. -/
theorem C7_skip_sentinel_witness :
    validate_checksum (fun _ => "AB") (fun _ => "CD") none "SKIP" "nope" =
      ⟨.ok true, false⟩ ∧
    ((validate_checksum (fun _ => "AB") (fun _ => "CD") (some [1]) "ab"
        "MD5").result = .ok true ↔ pyLower "AB" = pyLower "ab") :=
  ⟨(C7_skip_sentinel (fun _ => "AB") (fun _ => "CD") none "nope" "SKIP" []).1
      (by decide),
   (C7_skip_sentinel (fun _ => "AB") (fun _ => "CD") (some [1]) "MD5" "ab" [1]).2.1
      (by decide) (by decide)⟩

/-- C9: for every readable file and every supported algorithm, the digest
computed by `calculate_checksum` is block-size-invariant — any block size of
at least 1 yields the digest produced with the reference 8 KiB block size —
and repeated calls on the same unchanged content return the same value (the
embedding is a pure function of the content, mirroring that the incremental
hash depends only on the concatenation of the blocks read). -/
theorem C9_blocksize_invariance (md5fn sha256fn : List Nat → String)
    (checksum_type : String) (content : List Nat) (chunk_size : Nat)
    (hc : 1 ≤ chunk_size)
    (halg : pyLower checksum_type = "md5" ∨ pyLower checksum_type = "sha256") :
    calculate_checksum md5fn sha256fn (some content) checksum_type chunk_size =
      calculate_checksum md5fn sha256fn (some content) checksum_type 8192 ∧
    calculate_checksum md5fn sha256fn (some content) checksum_type chunk_size =
      calculate_checksum md5fn sha256fn (some content) checksum_type chunk_size := by
  refine ⟨?_, rfl⟩
  rcases halg with h | h
  · unfold calculate_checksum
    rw [if_pos h]
    dsimp only
    rw [readChunks_flatten chunk_size content hc,
      readChunks_flatten 8192 content (by norm_num), if_pos h]
  · have hmd : ¬ pyLower checksum_type = "md5" := by
      rw [h]
      decide
    unfold calculate_checksum
    rw [if_neg hmd, if_pos h]
    dsimp only
    rw [readChunks_flatten chunk_size content hc,
      readChunks_flatten 8192 content (by norm_num), if_neg hmd, if_pos h]

/-- Witness for C9 at block size 2 on a 5-byte file with md5. -/
theorem C9_blocksize_invariance_witness :
    calculate_checksum (fun l => "d") (fun l => "s") (some [1, 2, 3, 4, 5]) "md5" 2 =
      calculate_checksum (fun l => "d") (fun l => "s") (some [1, 2, 3, 4, 5]) "md5" 8192 :=
  (C9_blocksize_invariance (fun l => "d") (fun l => "s") "md5" [1, 2, 3, 4, 5] 2
    (by decide) (Or.inl (by decide))).1

theorem dictGet_dictSet_same (k : String) (v : JVal) :
    ∀ d, dictGet (dictSet d k v) k = some v := by
  intro d
  induction d with
  | nil => simp [dictSet, dictGet]
  | cons p rest ih =>
    obtain ⟨k1, v1⟩ := p
    by_cases h : k1 = k
    · simp [dictSet, dictGet, h]
    · simp [dictSet, dictGet, h, ih]

theorem dictGet_dictSet_other (k k2 : String) (v : JVal) (hne : k2 ≠ k) :
    ∀ d, dictGet (dictSet d k v) k2 = dictGet d k2 := by
  intro d
  induction d with
  | nil => simp [dictSet, dictGet, Ne.symm hne]
  | cons p rest ih =>
    obtain ⟨k1, v1⟩ := p
    by_cases h : k1 = k
    · subst h
      simp [dictSet, dictGet, Ne.symm hne]
    · simp [dictSet, dictGet, h, ih]

/-- C10: `save_progress` mutates the caller's dictionary in place by setting
exactly the key `last_updated` to the fresh timestamp (the clock reading plus
a trailing Z); every other key keeps its previous value, and when the write
succeeds the record persisted at the progress file is exactly the mutated
dictionary (its JSON serialization); when the write fails nothing is
persisted. -/
theorem C10_save_progress_frame (now : String) (write_ok : Bool)
    (progress_data : List (String × JVal)) :
    dictGet (save_progress now write_ok progress_data).progress_data "last_updated" =
      some (.str (now ++ "Z")) ∧
    (∀ k, k ≠ "last_updated" →
      dictGet (save_progress now write_ok progress_data).progress_data k =
        dictGet progress_data k) ∧
    (write_ok = true →
      (save_progress now write_ok progress_data).written =
        some (save_progress now write_ok progress_data).progress_data) ∧
    (write_ok = false →
      (save_progress now write_ok progress_data).written = none) := by
  refine ⟨?_, ?_, ?_, ?_⟩
  · exact dictGet_dictSet_same "last_updated" (.str (now ++ "Z")) progress_data
  · intro k hk
    exact dictGet_dictSet_other "last_updated" k (.str (now ++ "Z")) hk progress_data
  · intro h
    simp [save_progress, h]
  · intro h
    simp [save_progress, h]

/-- Witness for C10 on a concrete two-key dictionary with a successful
write. -/
theorem C10_save_progress_frame_witness :
    dictGet (save_progress "2024-01-01T00:00:00" true
        [("url", .str "u"), ("downloaded_bytes", .num 5)]).progress_data
      "last_updated" = some (.str ("2024-01-01T00:00:00" ++ "Z")) ∧
    dictGet (save_progress "2024-01-01T00:00:00" true
        [("url", .str "u"), ("downloaded_bytes", .num 5)]).progress_data
      "url" = dictGet [("url", .str "u"), ("downloaded_bytes", .num 5)] "url" ∧
    (save_progress "2024-01-01T00:00:00" true
        [("url", .str "u"), ("downloaded_bytes", .num 5)]).written =
      some (save_progress "2024-01-01T00:00:00" true
        [("url", .str "u"), ("downloaded_bytes", .num 5)]).progress_data :=
  ⟨(C10_save_progress_frame "2024-01-01T00:00:00" true
      [("url", .str "u"), ("downloaded_bytes", .num 5)]).1,
   (C10_save_progress_frame "2024-01-01T00:00:00" true
      [("url", .str "u"), ("downloaded_bytes", .num 5)]).2.1 "url" (by decide),
   (C10_save_progress_frame "2024-01-01T00:00:00" true
      [("url", .str "u"), ("downloaded_bytes", .num 5)]).2.2.1 rfl⟩
